import Mathlib

/-!
# Powder — Name/Project consistency engine, shallow embedding

A shallow embedding of the Convex backend of the `powder` project registry:
the `names` and `projects` tables (`convex/schema.ts`), the NameManager
mutations (`createName`, `updateName`, `deleteName`, `updateNameNotes`,
`_transitionNameState`), the ProjectNameLinker mutations
(`linkNamesToProject`, `promoteIdeaToActive`,
`releaseProjectNames`), and the ProjectManager mutations (`createProject`,
`updateProject`, `deleteProject`, with the helper `validateProjectRules`).

The database is modelled as association lists keyed by `Nat` document ids,
with a `nextId` counter standing in for Convex id allocation and a fixed
`now` standing in for `Date.now()` inside one mutation.  Every mutation
handler is a function `DB → Except Err ...`; a thrown `ConvexError`
becomes `.error e`, and since Convex mutations are transactional, an
erroring handler leaves the database unchanged (captured by `commit`).
-/

namespace Powder

/-- `names.status` field: `'available' | 'assigned' | 'considering'`. -/
inductive NameStatus where
  | available
  | assigned
  | considering
deriving DecidableEq, Repr

/-- `projects.status` field: `'idea' | 'active' | 'paused' | 'archived'`. -/
inductive ProjectStatus where
  | idea
  | active
  | paused
  | archived
deriving DecidableEq, Repr

/-- A document of the `names` table (`convex/schema.ts`). -/
structure NameDoc where
  name : String
  status : NameStatus
  assignedTo : Option Nat := none
  notes : Option String := none
deriving DecidableEq, Repr

/-- A document of the `projects` table (`convex/schema.ts`). -/
structure ProjectDoc where
  nameId : Option Nat := none
  consideringNameIds : List Nat := []
  description : Option String := none
  githubRepo : Option String := none
  productionUrl : Option String := none
  status : ProjectStatus
  tags : List String := []
  createdAt : Nat := 0
  updatedAt : Nat := 0
deriving DecidableEq, Repr

/-- The Convex database state: the two tables, the id allocator, and the
current clock value used for `Date.now()` within a mutation. -/
structure DB where
  names : List (Nat × NameDoc) := []
  projects : List (Nat × ProjectDoc) := []
  nextId : Nat := 0
  now : Nat := 0
deriving DecidableEq, Repr

/-- Each constructor corresponds to one `throw new ConvexError(...)` site
in the backend modules. -/
inductive Err where
  /-- `Name ... not found` (NameManager / ProjectNameLinker). -/
  | nameNotFound (nameId : Nat)
  /-- `Project not found`. -/
  | projectNotFound
  /-- `Name "..." is already assigned to another project`. -/
  | nameConflict (name : String)
  /-- `Invalid state transition: from → to` (`_transitionNameState`). -/
  | invalidTransition (fromStatus toStatus : NameStatus)
  /-- `Name "..." already exists` (`createName` / `updateName`). -/
  | duplicateName (name : String)
  /-- `Name cannot be empty` (`updateName`). -/
  | emptyName
  /-- `Cannot delete a name that is assigned to a project` (`deleteName`). -/
  | nameInUseAssigned
  /-- `Cannot delete a name that is being considered by a project`. -/
  | nameInUseConsidered
  /-- `Ideas cannot have an assigned name` (`validateProjectRules`). -/
  | ideasCannotHaveName
  /-- `Active, paused, and archived projects must have an assigned name`. -/
  | nonIdeaMustHaveName
  /-- `Active, paused, and archived projects cannot consider names`. -/
  | nonIdeaCannotConsider
  /-- `GitHub repo must be in format: owner/repo ...`. -/
  | invalidGithubRepo
  /-- `Invalid production URL format`. -/
  | invalidUrl
  /-- `Active projects must have an assigned name` (`linkNamesToProject`). -/
  | activeMustHaveName
  /-- `Can only promote ideas to active` (`promoteIdeaToActive`). -/
  | notAnIdea
  /-- `Chosen name is not being considered by this idea`. -/
  | nameNotConsidered
deriving DecidableEq, Repr

/-- Replace the value stored at key `k` in an association list (the effect
of `ctx.db.patch(k, ...)` once the new document is computed). -/
def setA {α : Type} (l : List (Nat × α)) (k : Nat) (v : α) : List (Nat × α) :=
  l.map fun kv => if kv.1 = k then (k, v) else kv

/-- `ctx.db.patch` on the `names` table. -/
def patchName (db : DB) (nameId : Nat) (doc : NameDoc) : DB :=
  { db with names := setA db.names nameId doc }

/-- `ctx.db.patch` on the `projects` table. -/
def patchProject (db : DB) (projectId : Nat) (doc : ProjectDoc) : DB :=
  { db with projects := setA db.projects projectId doc }

/-- Run a mutation handler against the database: Convex mutations are
transactional, so a handler that throws leaves the state unchanged. -/
def commit (f : DB → Except Err DB) (db : DB) : DB :=
  match f db with
  | .ok db' => db'
  | .error _ => db

/-! ## NameManager (`convex/names.ts`) -/

/-- The `validTransitions` table of `_transitionNameState`:
`{available: [considering, assigned], considering: [available, assigned],
assigned: [available]}`. -/
def validTransition (fromStatus toStatus : NameStatus) : Bool :=
  match fromStatus with
  | .available => toStatus = NameStatus.considering ∨ toStatus = NameStatus.assigned
  | .considering => toStatus = NameStatus.available ∨ toStatus = NameStatus.assigned
  | .assigned => toStatus = NameStatus.available

/-- `_transitionNameState` internal mutation: validates the state machine
and patches `status`/`assignedTo` (patching `assignedTo` with an omitted
argument clears the field, as Convex `patch` does for `undefined`). -/
def _transitionNameState (db : DB) (nameId : Nat) (toStatus : NameStatus)
    (assignedTo : Option Nat) : Except Err DB :=
  match db.names.lookup nameId with
  | none => .error (.nameNotFound nameId)
  | some nm =>
    if validTransition nm.status toStatus then
      .ok (patchName db nameId { nm with status := toStatus, assignedTo := assignedTo })
    else
      .error (.invalidTransition nm.status toStatus)

/-- `createName` mutation: duplicate check through the `by_name` index,
then insert with status `available`. Returns the new id. -/
def createName (db : DB) (name : String) (notes : Option String) :
    Except Err (Nat × DB) :=
  if db.names.any (fun kv => kv.2.name = name) then
    .error (.duplicateName name)
  else
    .ok (db.nextId,
      { db with
        names := db.names ++ [(db.nextId,
          { name := name, status := .available, assignedTo := none, notes := notes })]
        nextId := db.nextId + 1 })

/-- `updateName` mutation: trims, rejects the empty string, enforces
uniqueness of the trimmed text against other ids, then patches `name`. -/
def updateName (db : DB) (nameId : Nat) (name : String) : Except Err DB :=
  let trimmed := name.trim
  if trimmed.length = 0 then
    .error .emptyName
  else
    match db.names.find? (fun kv => kv.2.name = trimmed) with
    | some kv =>
      if kv.1 ≠ nameId then
        .error (.duplicateName trimmed)
      else
        match db.names.lookup nameId with
        | none => .error (.nameNotFound nameId)
        | some nm => .ok (patchName db nameId { nm with name := trimmed })
    | none =>
      match db.names.lookup nameId with
      | none => .error (.nameNotFound nameId)
      | some nm => .ok (patchName db nameId { nm with name := trimmed })

/-- `deleteName` mutation: refuses when any project assigns or considers
the name, otherwise removes the document. -/
def deleteName (db : DB) (nameId : Nat) : Except Err DB :=
  match db.names.lookup nameId with
  | none => .error (.nameNotFound nameId)
  | some _ =>
    if db.projects.any (fun kv => kv.2.nameId = some nameId) then
      .error .nameInUseAssigned
    else if db.projects.any (fun kv => nameId ∈ kv.2.consideringNameIds) then
      .error .nameInUseConsidered
    else
      .ok { db with names := db.names.filter (fun kv => kv.1 ≠ nameId) }

/-- `updateNameNotes` mutation: patch `notes` only. -/
def updateNameNotes (db : DB) (nameId : Nat) (notes : String) : Except Err DB :=
  match db.names.lookup nameId with
  | none => .error (.nameNotFound nameId)
  | some nm => .ok (patchName db nameId { nm with notes := some notes })

/-! ## ProjectNameLinker (`convex/projectNameLinker.ts`) -/

/-- The loop body of the `idea` branch of `linkNamesToProject`: for each
considering id, check existence, reject a name assigned to a *different*
project, then transition it to `considering`. -/
def linkConsideringLoop (projectId : Nat) : List Nat → DB → Except Err DB
  | [], db => .ok db
  | nid :: rest, db =>
    match db.names.lookup nid with
    | none => .error (.nameNotFound nid)
    | some nm =>
      if nm.status = .assigned ∧ nm.assignedTo ≠ some projectId then
        .error (.nameConflict nm.name)
      else
        match _transitionNameState db nid .considering none with
        | .error e => .error e
        | .ok db' => linkConsideringLoop projectId rest db'

/-- `linkNamesToProject` mutation: ideas link their considering names;
non-ideas require a `nameId`, reject one assigned elsewhere, and assign it. -/
def linkNamesToProject (db : DB) (projectId : Nat) (status : ProjectStatus)
    (nameId : Option Nat) (consideringNameIds : List Nat) : Except Err DB :=
  if status = .idea then
    linkConsideringLoop projectId consideringNameIds db
  else
    match nameId with
    | none => .error .activeMustHaveName
    | some nid =>
      match db.names.lookup nid with
      | none => .error (.nameNotFound nid)
      | some nm =>
        if nm.status = .assigned ∧ nm.assignedTo ≠ some projectId then
          .error (.nameConflict nm.name)
        else
          _transitionNameState db nid .assigned (some projectId)

/-- Release loop of `promoteIdeaToActive`: every considering name other
than the chosen one transitions to `available`. -/
def releaseOthersLoop (chosenNameId : Nat) : List Nat → DB → Except Err DB
  | [], db => .ok db
  | nid :: rest, db =>
    if nid ≠ chosenNameId then
      match _transitionNameState db nid .available none with
      | .error e => .error e
      | .ok db' => releaseOthersLoop chosenNameId rest db'
    else
      releaseOthersLoop chosenNameId rest db

/-- `promoteIdeaToActive` mutation: validates the project is an idea and
the chosen name is under consideration, releases the other considering
names, assigns the chosen one, and patches the project record. -/
def promoteIdeaToActive (db : DB) (projectId chosenNameId : Nat) : Except Err DB :=
  match db.projects.lookup projectId with
  | none => .error .projectNotFound
  | some p =>
    if p.status ≠ .idea then
      .error .notAnIdea
    else if chosenNameId ∉ p.consideringNameIds then
      .error .nameNotConsidered
    else
      match releaseOthersLoop chosenNameId p.consideringNameIds db with
      | .error e => .error e
      | .ok db1 =>
        match _transitionNameState db1 chosenNameId .assigned (some projectId) with
        | .error e => .error e
        | .ok db2 =>
          match db2.projects.lookup projectId with
          | none => .error .projectNotFound
          | some q =>
            .ok (patchProject db2 projectId
              { q with
                status := .active
                nameId := some chosenNameId
                consideringNameIds := []
                updatedAt := db2.now })

/-- Release loop of `releaseProjectNames`: every considering name
transitions to `available`. -/
def releaseAllLoop : List Nat → DB → Except Err DB
  | [], db => .ok db
  | nid :: rest, db =>
    match _transitionNameState db nid .available none with
    | .error e => .error e
    | .ok db' => releaseAllLoop rest db'

/-- `releaseProjectNames` mutation: the assigned name transitions to
`available` when `releaseToPool` and to `considering` otherwise; all
considering names transition to `available`. -/
def releaseProjectNames (db : DB) (projectId : Nat) (releaseToPool : Bool) :
    Except Err DB :=
  match db.projects.lookup projectId with
  | none => .error .projectNotFound
  | some p =>
    match p.nameId with
    | some nid =>
      match _transitionNameState db nid
          (if releaseToPool then .available else .considering) none with
      | .error e => .error e
      | .ok db1 => releaseAllLoop p.consideringNameIds db1
    | none => releaseAllLoop p.consideringNameIds db

/-! ## ProjectManager mutations (`convex/projects.ts`) -/

/-- A character accepted by the `owner`/`repo` segments of the regex
`^[a-zA-Z0-9_-]+\/[a-zA-Z0-9_-]+$`. -/
def repoChar (c : Char) : Bool :=
  c.isAlphanum || c = '_' || c = '-'

/-- The `githubRepoRegex` test: exactly one `/` separating two nonempty
runs of `[a-zA-Z0-9_-]`. -/
def githubRepoOk (s : String) : Bool :=
  match s.splitOn "/" with
  | [owner, repo] =>
    owner.length > 0 && repo.length > 0 && owner.all repoChar && repo.all repoChar
  | _ => false

/-- Models the `new URL(url)` success check of `isValidUrl`: a nonempty
alphabetic scheme followed by `://` and a remainder. -/
def isValidUrl (url : String) : Bool :=
  match url.splitOn "://" with
  | scheme :: _ :: _ => scheme.length > 0 && scheme.all Char.isAlpha
  | _ => false

/-- `validateProjectRules` helper: idea projects cannot carry a `nameId`;
other projects need a `nameId` and an empty considering list; `githubRepo`
and `productionUrl`, when present, must be well formed. -/
def validateProjectRules (status : ProjectStatus) (nameId : Option Nat)
    (consideringNameIds : List Nat) (githubRepo productionUrl : Option String) :
    Except Err Unit :=
  if status = .idea then
    if nameId.isSome then
      .error .ideasCannotHaveName
    else
      validateMeta githubRepo productionUrl
  else
    if nameId = none then
      .error .nonIdeaMustHaveName
    else if consideringNameIds.length > 0 then
      .error .nonIdeaCannotConsider
    else
      validateMeta githubRepo productionUrl
where
  /-- The common tail of `validateProjectRules`: repo format, then URL. -/
  validateMeta (githubRepo productionUrl : Option String) : Except Err Unit :=
    match githubRepo with
    | some repo =>
      if githubRepoOk repo then
        match productionUrl with
        | some url => if isValidUrl url then .ok () else .error .invalidUrl
        | none => .ok ()
      else
        .error .invalidGithubRepo
    | none =>
      match productionUrl with
      | some url => if isValidUrl url then .ok () else .error .invalidUrl
      | none => .ok ()

/-- Arguments of the `createProject` mutation. -/
structure CreateProjectArgs where
  status : ProjectStatus
  nameId : Option Nat := none
  consideringNameIds : List Nat := []
  description : Option String := none
  githubRepo : Option String := none
  productionUrl : Option String := none
  tags : List String := []
deriving DecidableEq, Repr

/-- `createProject` mutation: validates the business rules and inserts the
project row.  The call into `linkNamesToProject` is left as a TODO comment
in the source, so no name-side effect happens here. -/
def createProject (db : DB) (a : CreateProjectArgs) : Except Err (Nat × DB) :=
  match validateProjectRules a.status a.nameId a.consideringNameIds
      a.githubRepo a.productionUrl with
  | .error e => .error e
  | .ok () =>
    .ok (db.nextId,
      { db with
        projects := db.projects ++ [(db.nextId,
          { status := a.status
            nameId := a.nameId
            consideringNameIds := a.consideringNameIds
            description := a.description
            githubRepo := a.githubRepo
            productionUrl := a.productionUrl
            tags := a.tags
            createdAt := db.now
            updatedAt := db.now })]
        nextId := db.nextId + 1 })

/-- Arguments of the `updateProject` mutation; `none` stands for an
omitted (`undefined`) optional argument — a Convex client cannot pass an
explicit `null` for a `v.optional` validator, so a present `nameId` is
always a real id. -/
structure UpdateProjectArgs where
  projectId : Nat
  status : Option ProjectStatus := none
  nameId : Option Nat := none
  consideringNameIds : Option (List Nat) := none
  description : Option String := none
  githubRepo : Option String := none
  productionUrl : Option String := none
  tags : Option (List String) := none
deriving DecidableEq, Repr

/-- `updateProject` mutation: merges each provided argument over the
existing record with `args.x ?? existing.x`, re-validates the merged
record, then patches only the provided fields and bumps `updatedAt`. -/
def updateProject (db : DB) (a : UpdateProjectArgs) : Except Err DB :=
  match db.projects.lookup a.projectId with
  | none => .error .projectNotFound
  | some existing =>
    match validateProjectRules (a.status.getD existing.status)
        (a.nameId.orElse fun _ => existing.nameId)
        (a.consideringNameIds.getD existing.consideringNameIds)
        (a.githubRepo.orElse fun _ => existing.githubRepo)
        (a.productionUrl.orElse fun _ => existing.productionUrl) with
    | .error e => .error e
    | .ok () =>
      .ok (patchProject db a.projectId
        { existing with
          status := a.status.getD existing.status
          nameId := a.nameId.orElse fun _ => existing.nameId
          consideringNameIds := a.consideringNameIds.getD existing.consideringNameIds
          description := a.description.orElse fun _ => existing.description
          githubRepo := a.githubRepo.orElse fun _ => existing.githubRepo
          productionUrl := a.productionUrl.orElse fun _ => existing.productionUrl
          tags := a.tags.getD existing.tags
          updatedAt := db.now })

/-- `deleteProject` mutation: checks existence and deletes the row.  The
call into `releaseProjectNames` is left as a TODO comment in the source,
so `releaseNames` has no effect on the `names` table. -/
def deleteProject (db : DB) (projectId : Nat) (releaseNames : Bool) :
    Except Err DB :=
  match db.projects.lookup projectId with
  | none => .error .projectNotFound
  | some _ => .ok { db with projects := db.projects.filter (fun kv => kv.1 ≠ projectId) }

/-! ## Public operations and reachable states -/

/-- One invocation of a public operation, as listed in the spec's
invariant claim: the project CRUD mutations, idea promotion, and the name
operations. -/
inductive Op where
  | createName (name : String) (notes : Option String)
  | updateName (nameId : Nat) (name : String)
  | deleteName (nameId : Nat)
  | updateNameNotes (nameId : Nat) (notes : String)
  | createProject (a : CreateProjectArgs)
  | updateProject (a : UpdateProjectArgs)
  | deleteProject (projectId : Nat) (releaseNames : Bool)
  | promoteIdeaToActive (projectId chosenNameId : Nat)

/-- Apply one public operation transactionally: an erroring mutation
leaves the database unchanged. -/
def applyOp (op : Op) (db : DB) : DB :=
  match op with
  | .createName n notes =>
    match createName db n notes with
    | .ok (_, db') => db'
    | .error _ => db
  | .updateName nid n => commit (fun d => updateName d nid n) db
  | .deleteName nid => commit (fun d => deleteName d nid) db
  | .updateNameNotes nid notes => commit (fun d => updateNameNotes d nid notes) db
  | .createProject a =>
    match createProject db a with
    | .ok (_, db') => db'
    | .error _ => db
  | .updateProject a => commit (fun d => updateProject d a) db
  | .deleteProject pid rel => commit (fun d => deleteProject d pid rel) db
  | .promoteIdeaToActive pid chosen =>
    commit (fun d => promoteIdeaToActive d pid chosen) db

/-- One step of the public interface. -/
def Step (db db' : DB) : Prop :=
  ∃ op, db' = applyOp op db

/-- States reachable from the empty database via public operations. -/
def Reachable (db : DB) : Prop :=
  Relation.ReflTransGen Step {} db

/-- Number of projects whose `nameId` equals the given name id. -/
def assignedCount (db : DB) (nameId : Nat) : Nat :=
  (db.projects.filter (fun kv => kv.2.nameId = some nameId)).length

/-- The spec invariant: a name has status `assigned` iff exactly one
project has `nameId` equal to that name's id. -/
def assignedInvariant (db : DB) : Bool :=
  db.names.all fun kv =>
    (kv.2.status = NameStatus.assigned) = (assignedCount db kv.1 = 1)

/-- The transition table as the spec's claim lists it: the five allowed
`from → to` pairs. -/
def specAllowedTransition (fromStatus toStatus : NameStatus) : Prop :=
  (fromStatus = .available ∧ toStatus = .considering) ∨
  (fromStatus = .available ∧ toStatus = .assigned) ∨
  (fromStatus = .considering ∧ toStatus = .available) ∨
  (fromStatus = .considering ∧ toStatus = .assigned) ∨
  (fromStatus = .assigned ∧ toStatus = .available)

instance (f t : NameStatus) : Decidable (specAllowedTransition f t) := by
  unfold specAllowedTransition
  infer_instance

/-! ## Concrete states used by counterexamples and witnesses -/

/-- State after `createName("sous")` on the empty database. -/
def sousCreatedDB : DB := applyOp (.createName "sous" none) {}

/-- State after additionally `createProject({status:"active", nameId:0})`:
the project row references "sous" but no linking happened. -/
def sousLinkedDB : DB :=
  applyOp (.createProject { status := .active, nameId := some 0 }) sousCreatedDB

/-- A database in which name `0` ("sous") is `assigned` to project `1`. -/
def conflictDB : DB :=
  { names := [(0, { name := "sous", status := .assigned, assignedTo := some 1 })]
    projects := [(1, { status := .active, nameId := some 0 })]
    nextId := 2
    now := 5 }

/-- An idea project `2` considering the names `0` ("sous") and `1`
("chefbot"), both in status `considering`. -/
def ideaDB : DB :=
  { names := [(0, { name := "sous", status := .considering }),
              (1, { name := "chefbot", status := .considering })]
    projects := [(2, { status := .idea, consideringNameIds := [0, 1] })]
    nextId := 3
    now := 9 }

/-- `conflictDB` after `updateProject {projectId := 1, description :=
some "hi"}`: the project row carries the new description, the merged
unchanged fields, and a bumped `updatedAt`. -/
def c10UpdatedDB : DB :=
  { names := [(0, { name := "sous", status := .assigned, assignedTo := some 1 })]
    projects := [(1, { status := .active
                       nameId := some 0
                       description := some "hi"
                       updatedAt := 5 })]
    nextId := 2
    now := 5 }

/-- A database with a single cleared idea project `1` (no `nameId`, no
considering names) and a leftover available name. -/
def c9DB : DB :=
  { names := [(0, { name := "sous", status := .available })]
    projects := [(1, { status := .idea })]
    nextId := 2
    now := 7 }

/-! ## Helper lemmas about association-list patching -/

theorem lookup_setA_ne {A : Type} (l : List (Nat × A)) (k k' : Nat) (w : A)
    (h : k' ≠ k) : (setA l k w).lookup k' = l.lookup k' := by
  induction l with
  | nil => rfl
  | cons kv rest ih =>
    have hb : (k' == k) = false := beq_eq_false_iff_ne.mpr h
    by_cases hk : kv.1 = k
    · simp only [setA, List.map_cons, if_pos hk]
      rw [List.lookup, List.lookup, hk, hb]
      simpa [setA] using ih
    · simp only [setA, List.map_cons, if_neg hk]
      rw [List.lookup, List.lookup]
      cases hbk : (k' == kv.1) with
      | true => rfl
      | false => simpa [setA] using ih

theorem lookup_setA_self {A : Type} (l : List (Nat × A)) (k : Nat) (v w : A)
    (h : l.lookup k = some v) : (setA l k w).lookup k = some w := by
  induction l with
  | nil => simp [List.lookup] at h
  | cons kv rest ih =>
    by_cases hk : kv.1 = k
    · simp only [setA, List.map_cons, if_pos hk]
      rw [List.lookup]
      simp
    · simp only [setA, List.map_cons, if_neg hk]
      have hbk : (k == kv.1) = false := beq_eq_false_iff_ne.mpr (Ne.symm hk)
      rw [List.lookup] at h ⊢
      rw [hbk] at h ⊢
      simpa [setA] using ih h

/-- Running the release loop of `promoteIdeaToActive` over a duplicate-free
list of considering ids, all of which resolve to names in status
`considering`, succeeds; every non-chosen id ends `available` with its
assignment cleared, every other document (the chosen id included) keeps
its lookup, and the projects table, id allocator and clock are untouched. -/
theorem releaseOthersLoop_ok (chosen : Nat) :
    ∀ (l : List Nat) (db : DB), l.Nodup →
    (∀ nid ∈ l, ∃ nm : NameDoc,
      db.names.lookup nid = some nm ∧ nm.status = .considering) →
    ∃ db', releaseOthersLoop chosen l db = .ok db' ∧
      db'.projects = db.projects ∧ db'.nextId = db.nextId ∧ db'.now = db.now ∧
      (∀ nid : Nat, (nid ∈ l → nid = chosen) →
        db'.names.lookup nid = db.names.lookup nid) ∧
      (∀ nid ∈ l, nid ≠ chosen → ∃ nm : NameDoc,
        db.names.lookup nid = some nm ∧
        db'.names.lookup nid =
          some { nm with status := .available, assignedTo := none }) := by
  intro l
  induction l with
  | nil =>
    intro db _ _
    exact ⟨db, rfl, rfl, rfl, rfl, fun _ _ => rfl, by simp⟩
  | cons head rest ih =>
    intro db hnodup hnames
    have hheadnotin : head ∉ rest := (List.nodup_cons.mp hnodup).1
    by_cases hhead : head = chosen
    · have hstep : releaseOthersLoop chosen (head :: rest) db =
          releaseOthersLoop chosen rest db := by
        simp [releaseOthersLoop, hhead]
      obtain ⟨db', hrun, hproj, hnext, hnow, hpres, hchanged⟩ :=
        ih db (List.nodup_cons.mp hnodup).2
          (fun nid hmem => hnames nid (List.mem_cons_of_mem _ hmem))
      refine ⟨db', hstep ▸ hrun, hproj, hnext, hnow, ?_, ?_⟩
      · intro nid hcond
        exact hpres nid (fun hmem => hcond (List.mem_cons_of_mem _ hmem))
      · intro nid hmem hne
        rcases List.mem_cons.mp hmem with h1 | h2
        · exact absurd (h1.trans hhead) hne
        · exact hchanged nid h2 hne
    · obtain ⟨nm, hlook, hstatus⟩ := hnames head (List.mem_cons_self _ _)
      have htrans : _transitionNameState db head .available none =
          .ok (patchName db head { nm with status := .available, assignedTo := none }) := by
        simp [_transitionNameState, hlook, hstatus, validTransition]
      set db1 := patchName db head { nm with status := .available, assignedTo := none }
        with hdb1
      have hstep : releaseOthersLoop chosen (head :: rest) db =
          releaseOthersLoop chosen rest db1 := by
        simp [releaseOthersLoop, hhead, htrans]
      have hnames1 : ∀ nid ∈ rest, ∃ nm : NameDoc,
          db1.names.lookup nid = some nm ∧ nm.status = .considering := by
        intro nid hmem
        obtain ⟨nm', hl', hs'⟩ := hnames nid (List.mem_cons_of_mem _ hmem)
        have hne : nid ≠ head := fun he => hheadnotin (he ▸ hmem)
        refine ⟨nm', ?_, hs'⟩
        show (setA db.names head _).lookup nid = some nm'
        rw [lookup_setA_ne _ _ _ _ hne]
        exact hl'
      obtain ⟨db', hrun, hproj, hnext, hnow, hpres, hchanged⟩ :=
        ih db1 (List.nodup_cons.mp hnodup).2 hnames1
      refine ⟨db', hstep ▸ hrun, hproj, hnext, hnow, ?_, ?_⟩
      · intro nid hcond
        have hne : nid ≠ head := by
          intro he
          exact hhead ((he ▸ hcond) (List.mem_cons_self _ _))
        have h1 : db'.names.lookup nid = db1.names.lookup nid :=
          hpres nid (fun hmem => hcond (List.mem_cons_of_mem _ hmem))
        rw [h1]
        show (setA db.names head _).lookup nid = db.names.lookup nid
        exact lookup_setA_ne _ _ _ _ hne
      · intro nid hmem hne
        rcases List.mem_cons.mp hmem with h1 | h2
        · subst h1
          refine ⟨nm, hlook, ?_⟩
          have h1 : db'.names.lookup nid = db1.names.lookup nid :=
            hpres nid (fun hmem' => absurd hmem' hheadnotin)
          rw [h1]
          exact lookup_setA_self _ _ nm _ hlook
        · obtain ⟨nm', hl', hc'⟩ := hchanged nid h2 hne
          have hneh : nid ≠ head := fun he => hheadnotin (he ▸ h2)
          refine ⟨nm', ?_, hc'⟩
          have : db1.names.lookup nid = db.names.lookup nid :=
            lookup_setA_ne _ _ _ _ hneh
          rw [← this]
          exact hl'

/-! ## Claim theorems -/

/-- **C1** — The spec's assigned-name invariant (`status = assigned` iff
exactly one project has `nameId` = that name) is violated in a state
reachable by two public operations: `createName "sous"` followed by
`createProject {status := active, nameId := sous}`.  Because
`createProject` leaves the `linkNamesToProject` call as a TODO, the name
stays `available` while exactly one project references it. -/
theorem c1_invariant_violated_reachable :
    Reachable sousLinkedDB ∧ assignedInvariant sousLinkedDB = false := by
  constructor
  · have h1 : Step {} sousCreatedDB := ⟨.createName "sous" none, rfl⟩
    have h2 : Step sousCreatedDB sousLinkedDB :=
      ⟨.createProject { status := .active, nameId := some 0 }, rfl⟩
    exact Relation.ReflTransGen.tail (Relation.ReflTransGen.tail .refl h1) h2
  · decide

/-- **C2** — On a state where name `0` is already assigned to project `1`,
`createProject {status := active, nameId := 0}` does **not** fail with
`NameConflict`: the source never calls `linkNamesToProject` (TODO
comment), so the call succeeds, returns the new id `2`, and a second
project row carrying the conflicting `nameId` persists. -/
theorem c2_createProject_no_conflict_check :
    (createProject conflictDB { status := .active, nameId := some 0 }).map
      (fun r => (r.1, r.2.projects.length, (r.2.projects.lookup 2).map ProjectDoc.nameId)) =
    .ok (2, 2, some (some 0)) := rfl

/-- **C3** — `deleteProject(p, releaseNames := true)` on a project whose
`nameId` is the assigned name `0` removes the project row but does **not**
release the name: the `releaseProjectNames` call is a TODO comment in the
source, so the name keeps status `assigned` (the claim says it becomes
`available`). -/
theorem c3_deleteProject_does_not_release :
    (deleteProject conflictDB 1 true).map
      (fun d => ((d.names.lookup 0).map NameDoc.status, d.projects.lookup 1)) =
    .ok (some .assigned, none) := rfl

/-- **C4 counterexample** — `releaseProjectNames(1, releaseToPool :=
false)` on a project whose `nameId` has status `assigned` does **not**
complete successfully: it throws `InvalidTransition`, because
`_transitionNameState` does not allow `assigned → considering`. -/
theorem c4_release_keep_warm_fails :
    releaseProjectNames conflictDB 1 false =
      .error (.invalidTransition .assigned .considering) := rfl

/-- **C4 (amended)** — For every project whose `nameId` refers to a name
with status `assigned`, `releaseProjectNames(projectId, releaseToPool :=
false)` fails with `InvalidTransition (assigned → considering)` and
leaves the database (in particular that name) unchanged. -/
theorem c4_release_keep_warm_invalid_transition
    (db : DB) (projectId nid : Nat) (p : ProjectDoc) (nm : NameDoc)
    (hp : db.projects.lookup projectId = some p)
    (hnid : p.nameId = some nid)
    (hnm : db.names.lookup nid = some nm)
    (hst : nm.status = .assigned) :
    releaseProjectNames db projectId false =
      .error (.invalidTransition .assigned .considering) ∧
    commit (fun d => releaseProjectNames d projectId false) db = db := by
  have hmain : releaseProjectNames db projectId false =
      .error (.invalidTransition .assigned .considering) := by
    simp only [releaseProjectNames, hp, hnid, _transitionNameState, hnm, hst, validTransition]
    simp
  exact ⟨hmain, by simp [commit, hmain]⟩

/-- **C4 witness** — the amended theorem applied to `conflictDB`. -/
theorem c4_release_keep_warm_witness :
    releaseProjectNames conflictDB 1 false =
      .error (.invalidTransition .assigned .considering) ∧
    commit (fun d => releaseProjectNames d 1 false) conflictDB = conflictDB :=
  c4_release_keep_warm_invalid_transition conflictDB 1 0
    { status := .active, nameId := some 0 }
    { name := "sous", status := .assigned, assignedTo := some 1 }
    rfl rfl rfl rfl

/-- **C5** — `_transitionNameState` succeeds exactly on the five pairs
`available→considering`, `available→assigned`, `considering→available`,
`considering→assigned`, `assigned→available`; on every other pair it
fails with `InvalidTransition` and leaves the database (hence the name)
unchanged. -/
theorem c5_transition_characterization
    (db : DB) (nid : Nat) (nm : NameDoc) (toStatus : NameStatus)
    (assignedTo : Option Nat)
    (h : db.names.lookup nid = some nm) :
    ((∃ db', _transitionNameState db nid toStatus assignedTo = .ok db') ↔
      specAllowedTransition nm.status toStatus) ∧
    (¬ specAllowedTransition nm.status toStatus →
      _transitionNameState db nid toStatus assignedTo =
        .error (.invalidTransition nm.status toStatus) ∧
      commit (fun d => _transitionNameState d nid toStatus assignedTo) db = db) := by
  have hvalid : validTransition nm.status toStatus = true ↔
      specAllowedTransition nm.status toStatus := by
    cases hs : nm.status <;> cases ht : toStatus <;>
      simp [validTransition, specAllowedTransition]
  by_cases hallowed : specAllowedTransition nm.status toStatus
  · refine ⟨⟨fun _ => hallowed, fun _ => ?_⟩, fun hno => absurd hallowed hno⟩
    refine ⟨patchName db nid
      { nm with status := toStatus, assignedTo := assignedTo }, ?_⟩
    simp [_transitionNameState, h, hvalid.mpr hallowed]
  · have hv : validTransition nm.status toStatus = false := by
      cases hb : validTransition nm.status toStatus
      · rfl
      · exact absurd (hvalid.mp hb) hallowed
    have hmain : _transitionNameState db nid toStatus assignedTo =
        .error (.invalidTransition nm.status toStatus) := by
      simp [_transitionNameState, h, hv]
    refine ⟨⟨fun ⟨db', hdb'⟩ => ?_, fun ha => absurd ha hallowed⟩,
      fun _ => ⟨hmain, by simp [commit, hmain]⟩⟩
    rw [hmain] at hdb'
    exact Except.noConfusion hdb'

/-- **C5 witness** — the characterization applied to a one-name database
and the transition `available → considering`. -/
theorem c5_transition_witness :
    ((∃ db', _transitionNameState sousCreatedDB 0 .considering none = .ok db') ↔
      specAllowedTransition .available .considering) ∧
    (¬ specAllowedTransition .available .considering →
      _transitionNameState sousCreatedDB 0 .considering none =
        .error (.invalidTransition .available .considering) ∧
      commit (fun d => _transitionNameState d 0 .considering none) sousCreatedDB =
        sousCreatedDB) :=
  c5_transition_characterization sousCreatedDB 0
    { name := "sous", status := .available, assignedTo := none, notes := none }
    .considering none rfl

/-- **C6** — If name `N` is `assigned` with `assignedTo = A`, then for any
project `B ≠ A` and non-idea status, `linkNamesToProject` requesting `N`
as `nameId` fails with `NameConflict`, and the database (hence `N`'s
status and `assignedTo`) is exactly as before the call. -/
theorem c6_link_conflict
    (db : DB) (A B nid : Nat) (nm : NameDoc) (status : ProjectStatus)
    (cons : List Nat)
    (hnm : db.names.lookup nid = some nm)
    (hst : nm.status = .assigned)
    (hA : nm.assignedTo = some A)
    (hAB : A ≠ B)
    (hstatus : status ≠ .idea) :
    linkNamesToProject db B status (some nid) cons = .error (.nameConflict nm.name) ∧
    commit (fun d => linkNamesToProject d B status (some nid) cons) db = db := by
  have hne : nm.assignedTo ≠ some B := by
    rw [hA]
    intro hcontra
    exact hAB (Option.some_injective _ hcontra)
  have hmain : linkNamesToProject db B status (some nid) cons =
      .error (.nameConflict nm.name) := by
    simp only [linkNamesToProject, if_neg hstatus, hnm]
    rw [if_pos ⟨hst, hne⟩]
  exact ⟨hmain, by simp [commit, hmain]⟩

/-- **C6 witness** — the conflict theorem applied to `conflictDB` with
`A = 1`, `B = 2`. -/
theorem c6_link_conflict_witness :
    linkNamesToProject conflictDB 2 .active (some 0) [] =
      .error (.nameConflict "sous") ∧
    commit (fun d => linkNamesToProject d 2 .active (some 0) []) conflictDB =
      conflictDB :=
  c6_link_conflict conflictDB 1 2 0
    { name := "sous", status := .assigned, assignedTo := some 1 }
    .active [] rfl rfl rfl (by decide) (by decide)

/-- **C8** — On an existing non-idea project with an assigned `nameId`,
`updateProject(projectId, {status := idea})` without an explicit `nameId`
clear fails with the rule-1 `ValidationError` ("Ideas cannot have an
assigned name") and leaves the database unchanged: the omitted `nameId`
argument falls back to the existing one during validation. -/
theorem c8_update_to_idea_validation_error
    (db : DB) (projectId n : Nat) (existing : ProjectDoc)
    (hp : db.projects.lookup projectId = some existing)
    (hst : existing.status ≠ .idea)
    (hn : existing.nameId = some n) :
    updateProject db { projectId := projectId, status := some .idea } =
      .error .ideasCannotHaveName ∧
    commit (fun d => updateProject d { projectId := projectId, status := some .idea })
      db = db := by
  have hmain : updateProject db { projectId := projectId, status := some .idea } =
      .error .ideasCannotHaveName := by
    simp only [updateProject, hp]
    simp [validateProjectRules, Option.getD, Option.orElse, hn]
  exact ⟨hmain, by simp [commit, hmain]⟩

/-- **C8 witness** — applied to `conflictDB`'s active project `1`, which
has `nameId = 0`. -/
theorem c8_update_to_idea_witness :
    updateProject conflictDB { projectId := 1, status := some .idea } =
      .error .ideasCannotHaveName ∧
    commit (fun d => updateProject d { projectId := 1, status := some .idea })
      conflictDB = conflictDB :=
  c8_update_to_idea_validation_error conflictDB 1 0
    { status := .active, nameId := some 0 } rfl (by decide) rfl

/-- **C9** — Calling `releaseProjectNames(projectId, releaseToPool :=
true)` on an already-deleted project throws exactly `NotFound` ("Project
not found") and changes nothing; on a project whose name references have
been cleared (`nameId` absent, empty considering list) it succeeds and
returns the database unchanged, so no name's status changes. -/
theorem c9_release_idempotent (db : DB) (projectId : Nat) (p : ProjectDoc) :
    (db.projects.lookup projectId = none →
      releaseProjectNames db projectId true = .error .projectNotFound ∧
      commit (fun d => releaseProjectNames d projectId true) db = db) ∧
    (db.projects.lookup projectId = some p → p.nameId = none →
      p.consideringNameIds = [] →
      releaseProjectNames db projectId true = .ok db) := by
  constructor
  · intro hnone
    have hmain : releaseProjectNames db projectId true = .error .projectNotFound := by
      simp [releaseProjectNames, hnone]
    exact ⟨hmain, by simp [commit, hmain]⟩
  · intro hsome hnid hcons
    simp [releaseProjectNames, hsome, hnid, hcons, releaseAllLoop]

/-- **C7** — `promoteIdeaToActive` fails with `NotAnIdea` when the
project's status is not `idea` and with `NameNotConsidered` when the
chosen name is not in `consideringNameIds`; on an idea whose considering
ids are duplicate-free and all resolve to names in status `considering`,
it succeeds: the chosen name becomes `assigned` to the project, every
other considering name becomes `available` with its assignment cleared,
and the project record becomes `status = active`, `nameId = chosen`,
`consideringNameIds = []` with `updatedAt` bumped to the current clock. -/
theorem c7_promoteIdeaToActive_spec
    (db : DB) (projectId chosen : Nat) (p : ProjectDoc)
    (hp : db.projects.lookup projectId = some p) :
    (p.status ≠ .idea → promoteIdeaToActive db projectId chosen = .error .notAnIdea) ∧
    (p.status = .idea → chosen ∉ p.consideringNameIds →
      promoteIdeaToActive db projectId chosen = .error .nameNotConsidered) ∧
    (p.status = .idea → chosen ∈ p.consideringNameIds →
      p.consideringNameIds.Nodup →
      (∀ nid ∈ p.consideringNameIds, ∃ nm : NameDoc,
        db.names.lookup nid = some nm ∧ nm.status = .considering) →
      ∃ db', promoteIdeaToActive db projectId chosen = .ok db' ∧
        (∃ nm : NameDoc, db.names.lookup chosen = some nm ∧
          db'.names.lookup chosen =
            some { nm with status := .assigned, assignedTo := some projectId }) ∧
        (∀ nid ∈ p.consideringNameIds, nid ≠ chosen →
          ∃ nm : NameDoc, db.names.lookup nid = some nm ∧
            db'.names.lookup nid =
              some { nm with status := .available, assignedTo := none }) ∧
        db'.projects.lookup projectId =
          some { p with
                 status := .active
                 nameId := some chosen
                 consideringNameIds := []
                 updatedAt := db.now }) := by
  refine ⟨fun hne => by simp [promoteIdeaToActive, hp, hne], ?_, ?_⟩
  · intro hidea hnotmem
    simp [promoteIdeaToActive, hp, hidea, hnotmem]
  · intro hidea hmem hnodup hnames
    obtain ⟨db1, hrun, hproj1, hnext1, hnow1, hpres1, hchanged1⟩ :=
      releaseOthersLoop_ok chosen p.consideringNameIds db hnodup hnames
    obtain ⟨nmc, hnmc, hnmcStatus⟩ := hnames chosen hmem
    have hdb1chosen : db1.names.lookup chosen = some nmc := by
      rw [hpres1 chosen (fun _ => rfl)]
      exact hnmc
    have htrans : _transitionNameState db1 chosen .assigned (some projectId) =
        .ok (patchName db1 chosen
          { nmc with status := .assigned, assignedTo := some projectId }) := by
      simp [_transitionNameState, hdb1chosen, hnmcStatus, validTransition]
    set db2 := patchName db1 chosen
      { nmc with status := .assigned, assignedTo := some projectId } with hdb2
    have hdb2proj : db2.projects.lookup projectId = some p := by
      show db1.projects.lookup projectId = some p
      rw [hproj1]
      exact hp
    have hdb2now : db2.now = db.now := hnow1
    have hmain : promoteIdeaToActive db projectId chosen =
        .ok (patchProject db2 projectId
          { p with
            status := .active
            nameId := some chosen
            consideringNameIds := []
            updatedAt := db2.now }) := by
      simp only [promoteIdeaToActive, hp]
      rw [if_neg (by simp [hidea]), if_neg (by simp [hmem]), hrun]
      dsimp only
      rw [htrans]
      dsimp only
      rw [hdb2proj]
    refine ⟨_, hdb2now ▸ hmain, ⟨nmc, hnmc, ?_⟩, ?_, ?_⟩
    · show db2.names.lookup chosen = _
      exact lookup_setA_self _ _ nmc _ hdb1chosen
    · intro nid hmemN hne
      obtain ⟨nm', hl', hc'⟩ := hchanged1 nid hmemN hne
      refine ⟨nm', hl', ?_⟩
      show db2.names.lookup nid = _
      rw [show db2.names.lookup nid = db1.names.lookup nid from
        lookup_setA_ne _ _ _ _ hne]
      exact hc'
    · exact lookup_setA_self _ _ p _ hdb2proj

/-- **C7 witness** — promoting idea `2` with chosen name `0` on `ideaDB`:
the promotion succeeds, "sous" ends `assigned` and "chefbot" `available`. -/
theorem c7_promoteIdeaToActive_witness :
    ∃ db', promoteIdeaToActive ideaDB 2 0 = .ok db' ∧
      (db'.names.lookup 0).map NameDoc.status = some .assigned ∧
      (db'.names.lookup 1).map NameDoc.status = some .available ∧
      db'.projects.lookup 2 =
        some { status := .active, nameId := some 0,
               consideringNameIds := [], updatedAt := 9 } := by
  obtain ⟨db', hok, ⟨nmc, hnmc, hchosen⟩, hothers, hproj⟩ :=
    (c7_promoteIdeaToActive_spec ideaDB 2 0
        { status := .idea, consideringNameIds := [0, 1] } rfl).2.2
      rfl (by decide) (by decide)
      (by
        intro nid hmem
        have h01 : nid = 0 ∨ nid = 1 := by simpa using hmem
        rcases h01 with rfl | rfl
        · exact ⟨{ name := "sous", status := .considering }, rfl, rfl⟩
        · exact ⟨{ name := "chefbot", status := .considering }, rfl, rfl⟩)
  obtain ⟨nm1, hnm1, hch1⟩ := hothers 1 (by decide) (by decide)
  have hnm1eq : nm1 = { name := "chefbot", status := .considering } := by
    have : some nm1 = some { name := "chefbot", status := .considering } := by
      rw [← hnm1]; rfl
    exact Option.some_injective _ this
  have hnmceq : nmc = { name := "sous", status := .considering } := by
    have : some nmc = some { name := "sous", status := .considering } := by
      rw [← hnmc]; rfl
    exact Option.some_injective _ this
  subst hnm1eq hnmceq
  exact ⟨db', hok, by rw [hchosen]; rfl, by rw [hch1]; rfl, hproj⟩

/-- **C9 witness** — a database holding one cleared idea project `1`:
releasing the missing project `5` throws `NotFound`, releasing the
cleared project `1` returns the state unchanged. -/
theorem c9_release_idempotent_witness :
    (releaseProjectNames c9DB 5 true = .error .projectNotFound ∧
      commit (fun d => releaseProjectNames d 5 true) c9DB = c9DB) ∧
    releaseProjectNames c9DB 1 true = .ok c9DB :=
  ⟨(c9_release_idempotent c9DB 5 { status := .idea }).1 rfl,
   (c9_release_idempotent c9DB 1 { status := .idea }).2 rfl rfl rfl⟩

/-- **C10** — `updateProject` takes every omitted field from the existing
record (`args.x ?? existing.x`) both when validating and when patching.
Consequently it can never remove a present `nameId`: whenever an update
of a project whose `nameId` is set succeeds, the resulting record's
`status` and `nameId` are exactly the merged values, the `nameId` is
still present, and the status is not `idea`. -/
theorem c10_update_merge_preserves_nameId
    (db db' : DB) (a : UpdateProjectArgs) (existing : ProjectDoc) (n : Nat)
    (hp : db.projects.lookup a.projectId = some existing)
    (hn : existing.nameId = some n)
    (hok : updateProject db a = .ok db') :
    ∃ p', db'.projects.lookup a.projectId = some p' ∧
      p'.status = a.status.getD existing.status ∧
      p'.nameId = (a.nameId.orElse fun _ => existing.nameId) ∧
      p'.nameId.isSome = true ∧
      p'.status ≠ .idea := by
  have hsome : (a.nameId.orElse fun _ => existing.nameId).isSome = true := by
    cases ha : a.nameId with
    | some v => rfl
    | none => simp [Option.orElse, hn]
  simp only [updateProject, hp] at hok
  cases hval : validateProjectRules (a.status.getD existing.status)
      (a.nameId.orElse fun _ => existing.nameId)
      (a.consideringNameIds.getD existing.consideringNameIds)
      (a.githubRepo.orElse fun _ => existing.githubRepo)
      (a.productionUrl.orElse fun _ => existing.productionUrl) with
  | error e =>
    rw [hval] at hok
    exact absurd hok (by simp)
  | ok u =>
    rw [hval] at hok
    dsimp only at hok
    have hdb' : db' = patchProject db a.projectId
        { existing with
          status := a.status.getD existing.status
          nameId := a.nameId.orElse fun _ => existing.nameId
          consideringNameIds := a.consideringNameIds.getD existing.consideringNameIds
          description := a.description.orElse fun _ => existing.description
          githubRepo := a.githubRepo.orElse fun _ => existing.githubRepo
          productionUrl := a.productionUrl.orElse fun _ => existing.productionUrl
          tags := a.tags.getD existing.tags
          updatedAt := db.now } := (Except.ok.inj hok).symm
    refine ⟨{ existing with
              status := a.status.getD existing.status
              nameId := a.nameId.orElse fun _ => existing.nameId
              consideringNameIds := a.consideringNameIds.getD existing.consideringNameIds
              description := a.description.orElse fun _ => existing.description
              githubRepo := a.githubRepo.orElse fun _ => existing.githubRepo
              productionUrl := a.productionUrl.orElse fun _ => existing.productionUrl
              tags := a.tags.getD existing.tags
              updatedAt := db.now }, ?_, rfl, rfl, hsome, ?_⟩
    · rw [hdb']
      exact lookup_setA_self _ _ existing _ hp
    · intro hidea
      simp only at hidea
      rw [hidea] at hval
      rw [validateProjectRules] at hval
      simp [hsome] at hval

/-- **C10 witness** — updating only the description of `conflictDB`'s
project `1` (which has `nameId = 0`) succeeds and keeps `nameId`. -/
theorem c10_update_merge_witness :
    ∃ p', c10UpdatedDB.projects.lookup 1 = some p' ∧
      p'.status = .active ∧
      p'.nameId = some 0 ∧
      p'.nameId.isSome = true ∧
      p'.status ≠ .idea :=
  c10_update_merge_preserves_nameId conflictDB c10UpdatedDB
    { projectId := 1, description := some "hi" }
    { status := .active, nameId := some 0 } 0 rfl rfl rfl

end Powder
